import Mathlib

/-!
# Verification of the gas-playground client call pipeline

Shallow embedding of the client logic in `src/app/page.tsx` (call parser,
interface registry, call encoder, result decoder, list editing) and of the
display fallback in `src/app/components/ResultDisplay.tsx`.

Modelling conventions:
* 32-byte ABI words are modelled as `Nat` values (bounded by `2 ^ 256` where
  the library range-checks); hex blobs such as return data and log data are
  lists of such words.
* keccak-based selectors (function selectors, event topic signatures) are
  modelled by `stringCode`, an injective numeric code of the canonical
  signature string; only injectivity of the hash is relied upon.
* The viem helpers `encodeFunctionData`, `decodeFunctionResult` and
  `decodeEventLog` throw on failure; they are embedded as `Except`-returning
  functions with the same success/failure behaviour (strict mode defaults).
* Network calls are suspension points: the compile lane is modelled as a step
  function over arrival events, and the execution service is passed to
  `handleFunctionCalls` as an `Except`-valued function.
-/

/-! ## Call parser (`useEffect` body at `page.tsx:127-144`)

The source matches each line against the JavaScript regex `/(\w+)\((.*)\)/`
(first match, leftmost start, greedy subpatterns) and then splits, trims and
filters the captured argument text. -/

/-- JavaScript `\w`: ASCII letters, digits and underscore. -/
def isWordChar (c : Char) : Bool := c.isAlphanum || c == '_'

/-- Greedy `\w+`-style span: longest word-character prefix and the rest. -/
def spanWord : List Char → List Char × List Char
  | [] => ([], [])
  | c :: cs =>
    if isWordChar c then
      let p := spanWord cs
      (c :: p.1, p.2)
    else ([], c :: cs)

/-- Greedy `(.*)\)`: the text before the last closing parenthesis of the
remainder, or `none` when no closing parenthesis is left. -/
def untilLastParen (cs : List Char) : Option (List Char) :=
  match cs.reverse.dropWhile (fun c => c != ')') with
  | [] => none
  | _ :: after => some after.reverse

/-- Attempt to match `(\w+)\((.*)\)` anchored at the start of `cs`,
returning the captured name and argument text. -/
def matchAt (cs : List Char) : Option (List Char × List Char) :=
  let p := spanWord cs
  if p.1.isEmpty then none
  else
    match p.2 with
    | '(' :: r2 =>
      match untilLastParen r2 with
      | some inside => some (p.1, inside)
      | none => none
    | _ => none

/-- Leftmost match of `(\w+)\((.*)\)` in a line, as JavaScript `String.match`
finds it: try each start index left to right. -/
def findMatch : List Char → Option (List Char × List Char)
  | [] => none
  | c :: cs =>
    match matchAt (c :: cs) with
    | some m => some m
    | none => findMatch cs

/-- The `ParsedCall` of the spec: `{name, args}` pushed at `page.tsx:138`. -/
structure ParsedCall where
  name : String
  args : List String
deriving DecidableEq, Repr

/-- JavaScript `String.split` on a one-character separator. -/
def splitOnChar (sep : Char) : List Char → List (List Char)
  | [] => [[]]
  | c :: cs =>
    let r := splitOnChar sep cs
    if c = sep then [] :: r
    else
      match r with
      | h :: t => (c :: h) :: t
      | [] => [[c]]

/-- JavaScript `String.trim`: strip leading and trailing whitespace. -/
def trimChars (cs : List Char) : List Char :=
  ((cs.dropWhile Char.isWhitespace).reverse.dropWhile Char.isWhitespace).reverse

/-- Model of `call[2].split(",").map(trim).filter(nonempty)` from `page.tsx:134-137`. -/
def splitArgs (s : String) : List String :=
  (((splitOnChar ',' s.toList).map (fun a => String.mk (trimChars a))).filter
    (fun a => a != ""))

/-- Parse one call-list line: zero or one `ParsedCall`. -/
def parseLine (line : String) : Option ParsedCall :=
  match findMatch line.toList with
  | some m => some { name := String.mk m.1, args := splitArgs (String.mk m.2) }
  | none => none

/-- Parse the whole call list in order, skipping non-matching lines. -/
def parseFunctionCalls (lines : List String) : List ParsedCall :=
  lines.filterMap parseLine

/-! ## ABI data model (`ContractInterface` of the spec)

The `abi` state at `page.tsx:80` is a viem `Abi`: a list of function and
event descriptors. `uint256` is the only parameter type exercised by the
playground's contracts, so the embedded type universe carries it alone. -/

/-- ABI parameter types appearing in the modelled interfaces. -/
inductive AbiType
  | uint256
deriving DecidableEq, Repr

/-- Canonical type name used in signatures. -/
def AbiType.canonicalName : AbiType → String
  | .uint256 => "uint256"

/-- A function or event parameter; `name` is `none` for unnamed parameters,
`indexed` is meaningful for event parameters only. -/
structure AbiParam where
  name : Option String
  ty : AbiType
  indexed : Bool
deriving DecidableEq, Repr

/-- A function descriptor: name, input parameters and output parameters. -/
structure AbiFunction where
  name : String
  inputs : List AbiParam
  outputs : List AbiParam
deriving DecidableEq, Repr

/-- An event descriptor: name and parameters. -/
structure AbiEvent where
  name : String
  inputs : List AbiParam
deriving DecidableEq, Repr

/-- One entry of the viem `Abi` list. -/
inductive AbiItem
  | function (f : AbiFunction)
  | event (e : AbiEvent)
deriving DecidableEq, Repr

/-- The contract interface: ordered list of descriptors. -/
abbrev Abi := List AbiItem

/-- Injective numeric code of a string, standing in for the keccak-256 hash
that derives selectors and topic signatures (only hash injectivity is used by
the client logic). -/
def stringCode (s : String) : Nat :=
  s.toList.foldl (fun a c => a * 1114112 + c.toNat + 1) 0

/-- Canonical signature of an event, e.g. `StoredDataUpdated(uint256)`. -/
def eventSignature (e : AbiEvent) : String :=
  e.name ++ "(" ++ String.intercalate "," (e.inputs.map (fun p => p.ty.canonicalName)) ++ ")"

/-- Canonical signature of a function. -/
def functionSignature (f : AbiFunction) : String :=
  f.name ++ "(" ++ String.intercalate "," (f.inputs.map (fun p => p.ty.canonicalName)) ++ ")"

/-- First function descriptor with the given name (viem resolves
`functionName` against the ABI this way for non-overloaded contracts). -/
def findFunction (abi : Abi) (name : String) : Option AbiFunction :=
  abi.findSome? fun
    | .function f => if f.name = name then some f else none
    | .event _ => none

/-- First event descriptor whose topic signature matches the selector. -/
def findEventBySelector (abi : Abi) (sel : Nat) : Option AbiEvent :=
  abi.findSome? fun
    | .event e => if stringCode (eventSignature e) = sel then some e else none
    | .function _ => none

/-! ## Call encoder (`encodeFunctionData` use at `page.tsx:152-163`)

viem's `encodeFunctionData` throws `AbiFunctionNotFoundError` when the named
function is absent (the spec's `UnknownFunction`) and an encoding error when
the argument count mismatches or an argument cannot be coerced to its
declared type (the spec's `ArgumentEncodingError`). -/

deriving instance DecidableEq for Except

/-- Encoding-time failures. -/
inductive EncodeErr
  | functionNotFound (name : String)
  | lengthMismatch (fnName : String)
  | invalidArgument (arg : String)
deriving DecidableEq, Repr

/-- The `EncodedCall` of the spec: the entries pushed at `page.tsx:154-162`.
`calldata` is the function selector code paired with the encoded words. -/
structure EncodedCall where
  calldata : Nat × List Nat
  value : String
  caller : String
deriving DecidableEq, Repr

/-- Parse decimal numeric text, as the JavaScript `BigInt` coercion viem
applies to textual numeric arguments accepts it; non-numeric text fails. -/
def decimalToNat? (cs : List Char) : Option Nat :=
  if cs.isEmpty then none
  else if cs.all Char.isDigit then
    some (cs.foldl (fun n c => n * 10 + (c.toNat - 48)) 0)
  else none

/-- Coerce one raw argument string to a word of the given type: decimal
numeric text within range for `uint256`; anything else fails coercion. -/
def encodeArg (ty : AbiType) (arg : String) : Except EncodeErr Nat :=
  match ty with
  | .uint256 =>
    match decimalToNat? arg.toList with
    | some n => if n < 2 ^ 256 then .ok n else .error (.invalidArgument arg)
    | none => .error (.invalidArgument arg)

/-- Embedded `encodeFunctionData`. -/
def encodeFunctionData (abi : Abi) (c : ParsedCall) : Except EncodeErr EncodedCall :=
  match findFunction abi c.name with
  | none => .error (.functionNotFound c.name)
  | some fn =>
    if c.args.length ≠ fn.inputs.length then .error (.lengthMismatch fn.name)
    else do
      let words ← (fn.inputs.zip c.args).mapM (fun p => encodeArg p.1.ty p.2)
      pure { calldata := (stringCode (functionSignature fn), words)
             value := "0"
             caller := "0x0000000000000000000000000000000000000000" }

/-! ## Result decoder (`handleFunctionCalls` body at `page.tsx:165-206`)

`decodeFunctionResult` and `decodeEventLog` are viem helpers with strict
defaults: both throw on failure, embedded here as `Except`. -/

/-- Decode-time failures (the viem error classes the embedded paths reach). -/
inductive DecodeErr
  | functionNotFound (name : String)
  | zeroData
  | dataSizeTooSmall
  | emptyTopics
  | eventSignatureNotFound (sel : Nat)
  | topicsMismatch
  | dataMismatch
deriving DecidableEq, Repr

/-- A raw log entry of an execution response: `{address, topics, data}`.
`topics` are word-sized values, the first being the event topic signature. -/
structure RawLog where
  address : String
  topics : List Nat
  data : List Nat
deriving DecidableEq, Repr

/-- Decoded event arguments: an object when every parameter is named,
an array otherwise (viem's `DecodeEventLogReturnType` args shape). -/
inductive DecodedArgs
  | named (fields : List (String × Nat))
  | positional (values : List Nat)
deriving DecidableEq, Repr

/-- A decoded log: event name plus args in the event's declared shape. -/
structure DecodedLog where
  eventName : String
  args : DecodedArgs
deriving DecidableEq, Repr

/-- Execution traces are display-only and passed through verbatim by the
pipeline, so they are embedded as an opaque payload. -/
abbrev Traces := String

/-- One entry of the `/execute_calldatas_fork` response (`page.tsx:62-69`). -/
structure ExecutionResponse where
  exitReason : String
  reverted : Bool
  result : List Nat
  gasUsed : String
  logs : List RawLog
  traces : Traces
deriving DecidableEq, Repr

/-- One entry of the display model pushed at `page.tsx:193-199`. -/
structure DisplayResult where
  call : String
  gasUsed : String
  response : Option String
  logs : List DecodedLog
  traces : Traces
deriving DecidableEq, Repr

/-- Embedded viem `decodeFunctionResult`: resolve the function by name, then
decode the return words against its outputs. Empty outputs yield `none`
(JavaScript `undefined`); with outputs declared, empty data throws
`AbiDecodingZeroDataError` and short data throws a size error. -/
def decodeFunctionResult (abi : Abi) (name : String) (data : List Nat) :
    Except DecodeErr (Option (List Nat)) :=
  match findFunction abi name with
  | none => .error (.functionNotFound name)
  | some fn =>
    if fn.outputs.isEmpty then .ok none
    else if data.isEmpty then .error .zeroData
    else if data.length < fn.outputs.length then .error .dataSizeTooSmall
    else .ok (some (data.take fn.outputs.length))

/-- Walk the event parameters in declaration order, drawing indexed values
from the argument topics and the rest from the data words. -/
def assignEventValues : List AbiParam → List Nat → List Nat → List Nat
  | [], _, _ => []
  | p :: ps, ts, ds =>
    if p.indexed then
      match ts with
      | t :: ts2 => t :: assignEventValues ps ts2 ds
      | [] => []
    else
      match ds with
      | d :: ds2 => d :: assignEventValues ps ts ds2
      | [] => []

/-- Embedded viem `decodeEventLog` (strict default): match `topics[0]`
against the known event signatures; throw when no event matches; on a match
decode indexed args from topics and the rest from data, producing named args
when every parameter is named and positional args otherwise. -/
def decodeEventLog (abi : Abi) (log : RawLog) : Except DecodeErr DecodedLog :=
  match log.topics with
  | [] => .error .emptyTopics
  | sel :: argTopics =>
    match findEventBySelector abi sel with
    | none => .error (.eventSignatureNotFound sel)
    | some e =>
      if argTopics.length < (e.inputs.filter (fun p => p.indexed)).length then
        .error .topicsMismatch
      else if log.data.length < (e.inputs.filter (fun p => !p.indexed)).length then
        .error .dataMismatch
      else
        let values := assignEventValues e.inputs argTopics log.data
        let args :=
          if e.inputs.all (fun p => p.name.isSome) then
            DecodedArgs.named ((e.inputs.map (fun p => p.name.getD "")).zip values)
          else
            DecodedArgs.positional values
        .ok { eventName := e.name, args := args }

/-- JavaScript `String(returned)` at `page.tsx:196`: a single decoded value
prints alone, an array of values joins with commas. -/
def showReturned : Option (List Nat) → Option String
  | none => none
  | some vs => some (String.intercalate "," (vs.map toString))

/-- The decoding of one `(ParsedCall, ExecutionResponse)` pair inside the
loop at `page.tsx:176-200`: return data first, then every log in order; a
thrown decode error aborts the pair (and, through `decodeBatch`, the batch). -/
def decodeOne (abi : Abi) (callName : String) (r : ExecutionResponse) :
    Except DecodeErr DisplayResult := do
  let returned ← decodeFunctionResult abi callName r.result
  let logs ← r.logs.mapM (decodeEventLog abi)
  pure { call := callName
         gasUsed := r.gasUsed
         response := showReturned returned
         logs := logs
         traces := r.traces }

/-- The whole decoding loop: pairs are processed in order, and the first
thrown decode error propagates out of the loop, discarding all output. -/
def decodeBatch (abi : Abi) (calls : List ParsedCall) (results : List ExecutionResponse) :
    Except DecodeErr (List DisplayResult) :=
  (calls.zip results).mapM (fun p => decodeOne abi p.1.name p.2)

/-! ## The execution handler (`handleFunctionCalls`, `page.tsx:146-206`)

The handler encodes every parsed call *before* entering the try block, so an
encoding failure escapes the handler uncaught; transport and decode failures
are caught by the single catch, which logs to the console and leaves the held
result list unchanged. The execution service is passed in as a function. -/

/-- Observable outcome of one `handleFunctionCalls` run: the result list
afterwards, the `console.error` messages emitted, and any exception that
escaped the handler. -/
structure HandlerOutcome where
  resultAfter : List DisplayResult
  consoleErrors : List String
  escaped : Option EncodeErr
deriving DecidableEq, Repr

/-- Embedded `handleFunctionCalls`, parameterised by the execution service
(`axios.post` to `/execute_calldatas_fork`), which may fail with a transport
error message. -/
def handleFunctionCalls (abi : Abi) (bytecode : String)
    (parsedCalls : List ParsedCall)
    (execService : String → List EncodedCall → Except String (List ExecutionResponse))
    (prevResult : List DisplayResult) : HandlerOutcome :=
  if abi.isEmpty then
    { resultAfter := prevResult, consoleErrors := [], escaped := none }
  else
    match parsedCalls.mapM (encodeFunctionData abi) with
    | .error e =>
      { resultAfter := prevResult, consoleErrors := [], escaped := some e }
    | .ok encoded =>
      match execService bytecode encoded with
      | .error _ =>
        { resultAfter := prevResult, consoleErrors := ["Execution error:"], escaped := none }
      | .ok results =>
        match decodeBatch abi parsedCalls results with
        | .error _ =>
          { resultAfter := prevResult, consoleErrors := ["Execution error:"], escaped := none }
        | .ok output =>
          { resultAfter := output, consoleErrors := [], escaped := none }

/-! ## Interface registry (`compileSolidity`, `page.tsx:84-125`)

State held by the compile lane and the application of one compile outcome.
In the catch block, only an axios error that carries an HTTP error response
replaces the diagnostics; an axios error without a response (pure transport
failure) and any non-axios exception leave all state untouched. -/

/-- Diagnostic severity (`errorType: "Error" | "Warning"`). -/
inductive ErrorType
  | error
  | warning
deriving DecidableEq, Repr

/-- Source position details of a diagnostic. -/
structure ErrorDetails where
  line : Option Nat := none
  column : Option Nat := none
  codeSnippet : Option String := none
deriving DecidableEq, Repr

/-- One compiler diagnostic (`SolcError`, `page.tsx:52-60`). -/
structure SolcError where
  errorType : ErrorType
  message : String
  details : ErrorDetails
deriving DecidableEq, Repr

/-- One compiled unit of the compile response (`ContractData`); `abi` is
carried as the parsed interface the client obtains via `JSON.parse`. -/
structure ContractData where
  name : String
  abi : Abi
  bytecode : String
deriving DecidableEq, Repr

/-- The `/compile_solidity` response (`SolcCompileResponse`). -/
structure SolcCompileResponse where
  data : List ContractData
  errors : List SolcError
deriving DecidableEq, Repr

/-- The client state written by the compile lane. -/
structure CompileState where
  bytecode : String
  abi : Abi
  compilationErrors : List SolcError
deriving DecidableEq, Repr

/-- How one compile request terminates, as observed by the handler. -/
inductive CompileOutcome
  | success (resp : SolcCompileResponse)
  | axiosFailureWithResponse (message : Option String)
  | axiosFailureNoResponse
  | otherFailure
deriving DecidableEq, Repr

/-- Model of `axiosError.response.data.message || "Unknown error occurred"`: the
JavaScript or-default treats an absent and an empty message alike. -/
def synthMessage : Option String → String
  | none => "Unknown error occurred"
  | some m => if m = "" then "Unknown error occurred" else m

/-- The single synthesized diagnostic of the catch branch (`page.tsx:107-114`). -/
def synthesizedDiagnostic (message : Option String) : SolcError :=
  { errorType := .error, message := synthMessage message, details := {} }

/-- The success path (`page.tsx:93-101`): with at least one compiled unit,
take the last one and replace bytecode and interface; in every success case
replace the diagnostics with the returned list. -/
def applyCompileSuccess (s : CompileState) (resp : SolcCompileResponse) : CompileState :=
  let s2 :=
    match resp.data.getLast? with
    | some u => { s with bytecode := u.bytecode, abi := u.abi }
    | none => s
  { s2 with compilationErrors := resp.errors }

/-- Embedded `compileSolidity` response handling: what one resolved compile
request does to the held state. -/
def compileSolidity (s : CompileState) (o : CompileOutcome) : CompileState :=
  match o with
  | .success resp => applyCompileSuccess s resp
  | .axiosFailureWithResponse m => { s with compilationErrors := [synthesizedDiagnostic m] }
  | .axiosFailureNoResponse => s
  | .otherFailure => s

/-! ## Compile-lane event traces

The debounce timer cancels only *pending* timers; once a request has been
posted, `compileSolidity` awaits it and applies the outcome with no check
that the request is still the latest. The lane is modelled as a fold over
arrival events: issuing request `id` changes nothing, and the resolution of
request `id` applies its outcome unconditionally, exactly as the source does. -/

/-- An event of the compile lane: a request fired, or a response arrived. -/
inductive CompileEvent
  | issue (id : Nat)
  | resolve (id : Nat) (outcome : CompileOutcome)
deriving DecidableEq, Repr

/-- One event step of the compile lane as implemented: every resolution is
applied, whether or not the request was superseded. -/
def compileStep (s : CompileState) (e : CompileEvent) : CompileState :=
  match e with
  | .issue _ => s
  | .resolve _ o => compileSolidity s o

/-- Run the compile lane over a sequence of events. -/
def runCompileTrace (s : CompileState) (events : List CompileEvent) : CompileState :=
  events.foldl compileStep s

/-! ## Call-list editing (`handleFunctionCallsChange`, `page.tsx:214-230`)

A `null` event is a delete: `splice(index, 1)` is applied to the call list
and to the result list; otherwise the entry at `index` is overwritten. -/

/-- Embedded `handleFunctionCallsChange` acting on the pair of lists;
`update = none` is the delete operation. -/
def handleFunctionCallsChange (calls : List String) (result : List DisplayResult)
    (update : Option String) (index : Nat) : List String × List DisplayResult :=
  match update with
  | none => (calls.eraseIdx index, result.eraseIdx index)
  | some v => (calls.set index v, result)

/-! ## Execution-lane trigger (`useEffect` at `page.tsx:127-144`)

The effect depends on `[bytecode, functionCalls]` and re-runs when either
dep changed since the previous render; its body parses the call list and
schedules the debounced handler only when bytecode is truthy and at least
one call parsed. -/

/-- The dependency array of the execution effect. -/
structure ExecEffectDeps where
  bytecode : String
  functionCalls : List String
deriving DecidableEq, Repr

/-- React re-runs the effect when some entry of the dependency array
changed from the previous render. -/
def executionEffectTriggered (prev cur : ExecEffectDeps) : Bool :=
  (prev.bytecode != cur.bytecode) || (prev.functionCalls != cur.functionCalls)

/-- The guard at `page.tsx:141`: `bytecode && calls.length > 0`. -/
def executionEffectGuard (d : ExecEffectDeps) : Bool :=
  (d.bytecode != "") && (decide (0 < (parseFunctionCalls d.functionCalls).length))

/-- The execution lane is (re)scheduled on this render exactly when the
effect re-ran and its guard passed. -/
def executionLaneFires (prev cur : ExecEffectDeps) : Bool :=
  executionEffectTriggered prev cur && executionEffectGuard cur

/-! ## Display fallback (`ResultDisplay.tsx:32-62`)

The component renders decoded logs when the result carries a `logs` field
and falls back to the raw `{address, topics, data}` records only when
`logs` is absent. -/

/-- What the log section of `ResultDisplay` renders. -/
inductive RenderedLogs
  | decoded (logs : List DecodedLog)
  | raw (logs : List RawLog)
deriving DecidableEq, Repr

/-- The log-section choice of `ResultDisplay`: `result.logs` when present,
otherwise the raw logs. -/
def renderLogSection (logs : Option (List DecodedLog)) (rawLogs : List RawLog) :
    RenderedLogs :=
  match logs with
  | some ls => .decoded ls
  | none => .raw rawLogs

/-! ## Parser lemmas -/

/-- Lemma: `spanWord` consumes exactly a word prefix when the next character is not
a word character. -/
lemma spanWord_append (w : List Char) (c : Char) (r : List Char)
    (hw : ∀ x ∈ w, isWordChar x = true) (hc : isWordChar c = false) :
    spanWord (w ++ c :: r) = (w, c :: r) := by
  induction w with
  | nil => simp [spanWord, hc]
  | cons a as ih =>
    have ha : isWordChar a = true := hw a (by simp)
    have h2 : ∀ x ∈ as, isWordChar x = true := fun x hx => hw x (by simp [hx])
    simp [spanWord, ha, ih h2]

/-- The greedy `(.*)\)` capture of text followed by a final `)` is exactly
that text, whatever parentheses it contains. -/
lemma untilLastParen_append (args : List Char) :
    untilLastParen (args ++ [')' ]) = some args := by
  unfold untilLastParen
  rw [List.reverse_append]
  simp [List.dropWhile]

/-- Lemma: `spanWord` splits its input. -/
lemma spanWord_split (cs : List Char) : (spanWord cs).1 ++ (spanWord cs).2 = cs := by
  induction cs with
  | nil => rfl
  | cons c cs ih =>
    by_cases h : isWordChar c = true
    · simp [spanWord, h, ih]
    · simp [spanWord, h]

/-- An anchored regex match at the start of a well-shaped line succeeds with
the expected captures. -/
lemma matchAt_pattern (name args : List Char) (hn : name ≠ [])
    (hw : ∀ c ∈ name, isWordChar c = true) :
    matchAt (name ++ '(' :: (args ++ [')' ])) = some (name, args) := by
  unfold matchAt
  rw [spanWord_append name '(' (args ++ [')' ]) hw (by decide)]
  simp [hn, untilLastParen_append]

/-- A successful anchored match implies an opening parenthesis is present. -/
lemma matchAt_paren {cs : List Char} {m : List Char × List Char}
    (h : matchAt cs = some m) : '(' ∈ cs := by
  have hsplit := spanWord_split cs
  simp only [matchAt] at h
  split at h
  · exact absurd h (by simp)
  · split at h
    · rename_i r2 heq
      have : '(' ∈ (spanWord cs).2 := by rw [heq]; simp
      rw [← hsplit]
      exact List.mem_append_right _ this
    · exact absurd h (by simp)

/-- Leftmost search matches nothing when no opening parenthesis occurs. -/
lemma findMatch_none (cs : List Char) (h : '(' ∉ cs) : findMatch cs = none := by
  induction cs with
  | nil => rfl
  | cons c cs ih =>
    have h1 : '(' ∉ cs := fun hx => h (List.mem_cons_of_mem _ hx)
    have hm : matchAt (c :: cs) = none := by
      cases hma : matchAt (c :: cs) with
      | none => rfl
      | some m => exact absurd (matchAt_paren hma) h
    simp [findMatch, hm, ih h1]

/-- Rebuilding a string from its characters is the identity. -/
lemma string_mk_toList (s : String) : String.mk s.toList = s := rfl

/-- Leftmost search on a well-shaped line matches at position zero. -/
lemma findMatch_pattern (name args : List Char) (hn : name ≠ [])
    (hw : ∀ c ∈ name, isWordChar c = true) :
    findMatch (name ++ '(' :: (args ++ [')' ])) = some (name, args) := by
  cases name with
  | nil => exact absurd rfl hn
  | cons a as =>
    have h := matchAt_pattern (a :: as) args hn hw
    rw [List.cons_append] at h ⊢
    simp only [findMatch, h]

/-- Evaluating `parseLine` on a line of the exact shape `name(argText)` produces the
call with that name and the split-trim-filter of the argument text. -/
lemma parseLine_pattern (name args : String) (hn : name.toList ≠ [])
    (hw : ∀ c ∈ name.toList, isWordChar c = true) :
    parseLine (name ++ "(" ++ args ++ ")") = some { name := name, args := splitArgs args } := by
  unfold parseLine
  have hl : (name ++ "(" ++ args ++ ")").toList
      = name.toList ++ '(' :: (args.toList ++ [')' ]) := by
    simp [String.toList, String.data_append]
  rw [hl, findMatch_pattern name.toList args.toList hn hw]
  simp [string_mk_toList]

/-- C4: a line of the shape `name(args)` yields exactly one ParsedCall with
the matched name and the comma-split, trimmed, empty-filtered argument text;
lines with no opening parenthesis (hence not matching the pattern) yield no
ParsedCall; parsing distributes over concatenation of line lists, so line
order is preserved; `f()` and `f( , )` both yield zero arguments. -/
theorem parser_produces_split_trimmed_args :
    (∀ name args : String, name.toList ≠ [] →
      (∀ c ∈ name.toList, isWordChar c = true) →
      parseLine (name ++ "(" ++ args ++ ")") = some { name := name, args := splitArgs args })
    ∧ (∀ line : String, '(' ∉ line.toList → parseLine line = none)
    ∧ (∀ l1 l2 : List String,
        parseFunctionCalls (l1 ++ l2) = parseFunctionCalls l1 ++ parseFunctionCalls l2)
    ∧ parseLine "f()" = some { name := "f", args := [] }
    ∧ parseLine "f( , )" = some { name := "f", args := [] } := by
  refine ⟨parseLine_pattern, ?_, ?_, by decide, by decide⟩
  · intro line h
    unfold parseLine
    rw [findMatch_none line.toList h]
  · intro l1 l2
    exact List.filterMap_append l1 l2 parseLine

/-- C4 witness: concrete instantiations discharging every hypothesis. -/
theorem parser_produces_split_trimmed_args_witness :
    parseLine ("set" ++ "(" ++ " 1 , 2 " ++ ")") = some { name := "set", args := ["1", "2"] }
    ∧ parseLine "foobar" = none := by
  constructor
  · rw [parser_produces_split_trimmed_args.1 "set" " 1 , 2 " (by decide) (by decide)]
    decide
  · exact parser_produces_split_trimmed_args.2.1 "foobar" (by decide)

/-! ## List-editing lemmas -/

/-- Entries before the deleted index are untouched. -/
lemma getElem?_eraseIdx_lt {α : Type} :
    ∀ (l : List α) (i j : Nat), j < i → (l.eraseIdx i)[j]? = l[j]?
  | [], _, _, _ => rfl
  | _ :: _, 0, j, h => absurd h (Nat.not_lt_zero j)
  | _ :: _, i + 1, 0, _ => by simp [List.eraseIdx]
  | _ :: l, i + 1, j + 1, h => by
    simp only [List.eraseIdx, List.getElem?_cons_succ]
    exact getElem?_eraseIdx_lt l i j (Nat.lt_of_succ_lt_succ h)

/-- Entries from the deleted index on shift down by one. -/
lemma getElem?_eraseIdx_ge {α : Type} :
    ∀ (l : List α) (i j : Nat), i ≤ j → (l.eraseIdx i)[j]? = l[j + 1]?
  | [], _, _, _ => by simp
  | _ :: l, 0, j, _ => by simp [List.eraseIdx]
  | _ :: l, i + 1, j, h => by
    match j, h with
    | j + 1, h =>
      simp only [List.eraseIdx, List.getElem?_cons_succ]
      exact getElem?_eraseIdx_ge l i j (Nat.le_of_succ_le_succ h)

/-- C6: deleting call-list index `i` applies `eraseIdx i` to both lists:
both shrink by one, entries below `i` keep their positions in both lists,
and entries above `i` shift down by one in both lists, so the call list and
the result list stay index-aligned. -/
theorem delete_preserves_alignment (calls : List String) (result : List DisplayResult)
    (i : Nat) (hc : i < calls.length) (hr : i < result.length) :
    let p := handleFunctionCallsChange calls result none i
    p.1.length + 1 = calls.length ∧ p.2.length + 1 = result.length
    ∧ (∀ j, j < i → p.1[j]? = calls[j]? ∧ p.2[j]? = result[j]?)
    ∧ (∀ j, i ≤ j → p.1[j]? = calls[j + 1]? ∧ p.2[j]? = result[j + 1]?) := by
  refine ⟨?_, ?_, ?_, ?_⟩
  · exact List.length_eraseIdx_add_one hc
  · exact List.length_eraseIdx_add_one hr
  · exact fun j hj => ⟨getElem?_eraseIdx_lt calls i j hj, getElem?_eraseIdx_lt result i j hj⟩
  · exact fun j hj => ⟨getElem?_eraseIdx_ge calls i j hj, getElem?_eraseIdx_ge result i j hj⟩

/-- A sample display entry used by concrete instantiations. -/
def mkDisplay (label : String) : DisplayResult :=
  { call := label, gasUsed := "21000", response := none, logs := [], traces := "" }

/-- C6 witness: deleting index 1 of a three-entry pair of lists. -/
theorem delete_preserves_alignment_witness :
    (handleFunctionCallsChange ["get()", "set(1)", "get()"]
        [mkDisplay "get", mkDisplay "set", mkDisplay "get2"] none 1).2[1]?
      = some (mkDisplay "get2")
    ∧ (handleFunctionCallsChange ["get()", "set(1)", "get()"]
        [mkDisplay "get", mkDisplay "set", mkDisplay "get2"] none 1).1[0]?
      = some "get()" := by
  have h := delete_preserves_alignment ["get()", "set(1)", "get()"]
    [mkDisplay "get", mkDisplay "set", mkDisplay "get2"] 1 (by decide) (by decide)
  refine ⟨?_, ?_⟩
  · rw [(h.2.2.2 1 (by decide)).2]; decide
  · rw [(h.2.2.1 0 (by decide)).1]; decide

/-! ## Interface-registry theorems -/

/-- C8: a successful compile response with at least one compiled unit makes
the registry select the last unit, replace the held interface and bytecode
wholesale with that unit's, and replace the diagnostics with the returned
list, whatever the previous state was. -/
theorem compile_success_selects_last_unit (s : CompileState)
    (resp : SolcCompileResponse) (u : ContractData)
    (h : resp.data.getLast? = some u) :
    compileSolidity s (.success resp)
      = { bytecode := u.bytecode, abi := u.abi, compilationErrors := resp.errors } := by
  simp [compileSolidity, applyCompileSuccess, h]

/-- C8 witness: two compiled units and a success-with-warning diagnostic
list; the second (last) unit wins and the warning is kept. -/
theorem compile_success_selects_last_unit_witness :
    compileSolidity { bytecode := "0xOLD", abi := [], compilationErrors := [] }
      (.success
        { data :=
            [{ name := "First", abi := [], bytecode := "0x1111" },
             { name := "Second", abi := [], bytecode := "0x2222" }]
          errors := [{ errorType := .warning, message := "unused variable", details := {} }] })
      = { bytecode := "0x2222", abi := []
          compilationErrors := [{ errorType := .warning, message := "unused variable", details := {} }] } := by
  exact compile_success_selects_last_unit
    { bytecode := "0xOLD", abi := [], compilationErrors := [] }
    { data :=
        [{ name := "First", abi := [], bytecode := "0x1111" },
         { name := "Second", abi := [], bytecode := "0x2222" }]
      errors := [{ errorType := .warning, message := "unused variable", details := {} }] }
    { name := "Second", abi := [], bytecode := "0x2222" }
    (by decide)

/-- C5 amended: only a compile failure whose error carries an HTTP error
response replaces the diagnostics with the single synthesized error
diagnostic; an axios failure without a response and a non-axios exception
leave the whole state, diagnostics included, unchanged. In every failure
case the held interface and bytecode are untouched. -/
theorem compile_failure_state_update (s : CompileState) (m : Option String) :
    compileSolidity s (.axiosFailureWithResponse m)
      = { s with compilationErrors := [synthesizedDiagnostic m] }
    ∧ compileSolidity s .axiosFailureNoResponse = s
    ∧ compileSolidity s .otherFailure = s := by
  exact ⟨rfl, rfl, rfl⟩

/-- C5 counterexample: a transport failure with no HTTP response leaves the
diagnostics list empty instead of replacing it with exactly one synthesized
error diagnostic. -/
theorem transport_failure_keeps_diagnostics_counterexample :
    compileSolidity { bytecode := "0xB0", abi := [], compilationErrors := [] }
        .axiosFailureNoResponse
      = { bytecode := "0xB0", abi := [], compilationErrors := [] }
    ∧ ({ bytecode := "0xB0", abi := [], compilationErrors := [] } :
        CompileState).compilationErrors.length ≠ 1 := by
  exact ⟨rfl, by decide⟩

/-! ## Compile-lane staleness theorem -/

/-- C1 evaluated at the failing trace: requests 0 and 1 are issued in that
order, request 1 resolves first and installs bytecode `0xBBBB`; when the
superseded request 0 then resolves, its stale response is applied anyway,
changing the held state and leaving the stale bytecode `0xAAAA` installed. -/
theorem stale_compile_response_overwrites_state :
    runCompileTrace { bytecode := "", abi := [], compilationErrors := [] }
        [.issue 0, .issue 1,
         .resolve 1 (.success { data := [{ name := "B", abi := [], bytecode := "0xBBBB" }], errors := [] }),
         .resolve 0 (.success { data := [{ name := "A", abi := [], bytecode := "0xAAAA" }], errors := [] })]
      = { bytecode := "0xAAAA", abi := [], compilationErrors := [] }
    ∧ runCompileTrace { bytecode := "", abi := [], compilationErrors := [] }
        [.issue 0, .issue 1,
         .resolve 1 (.success { data := [{ name := "B", abi := [], bytecode := "0xBBBB" }], errors := [] })]
      = { bytecode := "0xBBBB", abi := [], compilationErrors := [] }
    ∧ ("0xAAAA" : String) ≠ "0xBBBB" := by
  exact ⟨rfl, rfl, by decide⟩

/-! ## Execution-lane trigger theorem -/

/-- C9: the execution lane fires only when the current bytecode is nonempty
and the call list parses to at least one call; and a change of either
dependency (bytecode or call-list content) re-triggers the effect. -/
theorem execution_lane_guard_and_trigger (prev cur : ExecEffectDeps) :
    (executionLaneFires prev cur = true →
      cur.bytecode ≠ "" ∧ parseFunctionCalls cur.functionCalls ≠ [])
    ∧ (prev.bytecode ≠ cur.bytecode ∨ prev.functionCalls ≠ cur.functionCalls →
      executionEffectTriggered prev cur = true) := by
  constructor
  · intro h
    have hg : executionEffectGuard cur = true := by
      unfold executionLaneFires at h
      exact (Bool.and_eq_true _ _).mp h |>.2
    unfold executionEffectGuard at hg
    have h2 := (Bool.and_eq_true _ _).mp hg
    refine ⟨by simpa using h2.1, ?_⟩
    intro hnil
    have := of_decide_eq_true h2.2
    rw [hnil] at this
    exact absurd this (by simp)
  · intro h
    unfold executionEffectTriggered
    rcases h with h | h <;> simp [h]

/-- C9 witness: a bytecode arrival together with a parsing call list fires
the lane, and the dependency change alone re-triggers the effect. -/
theorem execution_lane_guard_and_trigger_witness :
    (({ bytecode := "0x6001", functionCalls := ["get()"] } : ExecEffectDeps).bytecode ≠ ""
      ∧ parseFunctionCalls ({ bytecode := "0x6001", functionCalls := ["get()"] } :
          ExecEffectDeps).functionCalls ≠ [])
    ∧ executionEffectTriggered { bytecode := "", functionCalls := ["get()"] }
        { bytecode := "0x6001", functionCalls := ["get()"] } = true := by
  refine ⟨?_, ?_⟩
  · exact (execution_lane_guard_and_trigger
      { bytecode := "", functionCalls := ["get()"] }
      { bytecode := "0x6001", functionCalls := ["get()"] }).1 (by decide)
  · exact (execution_lane_guard_and_trigger
      { bytecode := "", functionCalls := ["get()"] }
      { bytecode := "0x6001", functionCalls := ["get()"] }).2 (by decide)

/-! ## Decoder independence from execution status flags -/

/-- Forget the `reverted` and `exitReason` fields of a response. -/
def stripStatusFlags (r : ExecutionResponse) : ExecutionResponse :=
  { r with reverted := false, exitReason := "" }

/-- Lemma: `decodeOne` reads only `result`, `gasUsed`, `logs` and `traces`. -/
lemma decodeOne_stripStatusFlags (abi : Abi) (n : String) (r : ExecutionResponse) :
    decodeOne abi n (stripStatusFlags r) = decodeOne abi n r := rfl

/-- Unfolding `decodeBatch` one pair at a time. -/
lemma decodeBatch_cons (abi : Abi) (c : ParsedCall) (cs : List ParsedCall)
    (r : ExecutionResponse) (rs : List ExecutionResponse) :
    decodeBatch abi (c :: cs) (r :: rs)
      = (decodeOne abi c.name r).bind
          (fun b => (decodeBatch abi cs rs).map (fun bs => b :: bs)) := by
  simp only [decodeBatch, List.zip_cons_cons, List.mapM_cons]
  rfl

/-- C10: display results do not depend on the responses' `reverted` and
`exitReason` fields — two batches of responses that agree after forgetting
those two fields decode to identical display results, so a reverted call's
return data is decoded and displayed exactly as a successful one's. -/
theorem decoder_ignores_revert_flag (abi : Abi) (calls : List ParsedCall) :
    ∀ (rs1 rs2 : List ExecutionResponse),
      rs1.map stripStatusFlags = rs2.map stripStatusFlags →
      decodeBatch abi calls rs1 = decodeBatch abi calls rs2 := by
  induction calls with
  | nil => intro rs1 rs2 _; simp [decodeBatch]
  | cons c cs ih =>
    intro rs1 rs2 h
    cases rs1 with
    | nil =>
      cases rs2 with
      | nil => rfl
      | cons r2 t2 => simp at h
    | cons r1 t1 =>
      cases rs2 with
      | nil => simp at h
      | cons r2 t2 =>
        simp only [List.map_cons, List.cons.injEq] at h
        obtain ⟨hh, ht⟩ := h
        have hone : decodeOne abi c.name r1 = decodeOne abi c.name r2 := by
          rw [← decodeOne_stripStatusFlags abi c.name r1,
            ← decodeOne_stripStatusFlags abi c.name r2]
          rw [show stripStatusFlags r1 = stripStatusFlags r2 from hh]
        rw [decodeBatch_cons, decodeBatch_cons, hone, ih t1 t2 ht]

/-- Interface with a single `get() returns (uint256)` function, used by
concrete instantiations. -/
def abiGetOnly : Abi :=
  [.function
    { name := "get"
      inputs := []
      outputs := [{ name := none, ty := .uint256, indexed := false }] }]

/-- A response returning the word 7, reverted with reason. -/
def respRevertedSeven : ExecutionResponse :=
  { exitReason := "Revert"
    reverted := true
    result := [7]
    gasUsed := "2246"
    logs := []
    traces := "" }

/-- The same response data, successful. -/
def respSuccessSeven : ExecutionResponse :=
  { exitReason := "Success"
    reverted := false
    result := [7]
    gasUsed := "2246"
    logs := []
    traces := "" }

/-- C10 witness: a reverted and a successful response with the same return
data decode to the same display result. -/
theorem decoder_ignores_revert_flag_witness :
    decodeBatch abiGetOnly [{ name := "get", args := [] }] [respRevertedSeven]
      = decodeBatch abiGetOnly [{ name := "get", args := [] }] [respSuccessSeven] := by
  exact decoder_ignores_revert_flag abiGetOnly [{ name := "get", args := [] }]
    [respRevertedSeven] [respSuccessSeven] (by decide)

/-! ## Encoder-failure and decoder-failure behaviour -/

/-- Interface of the default `SimpleStorage` contract: `set(uint256)`,
`get() returns (uint256)`, `getBlockNumber() returns (uint256)` and the
event `StoredDataUpdated(uint)` with an unnamed parameter. -/
def abiSimpleStorage : Abi :=
  [.function
    { name := "set"
      inputs := [{ name := some "x", ty := .uint256, indexed := false }]
      outputs := [] },
   .function
    { name := "get"
      inputs := []
      outputs := [{ name := none, ty := .uint256, indexed := false }] },
   .function
    { name := "getBlockNumber"
      inputs := []
      outputs := [{ name := none, ty := .uint256, indexed := false }] },
   .event
    { name := "StoredDataUpdated"
      inputs := [{ name := none, ty := .uint256, indexed := false }] }]

/-- C7 amended: a call naming a function absent from the interface fails
with the unknown-function error; an encoding failure escapes the handler as
an uncaught exception before the try block — it is not caught and not
logged by the handler, it is not surfaced per-call, and the held result
list is unchanged. -/
theorem encoder_failure_escapes_unlogged :
    (∀ (abi : Abi) (c : ParsedCall), findFunction abi c.name = none →
      encodeFunctionData abi c = .error (.functionNotFound c.name))
    ∧ (∀ (abi : Abi) (bytecode : String) (calls : List ParsedCall)
        (exec : String → List EncodedCall → Except String (List ExecutionResponse))
        (prev : List DisplayResult) (e : EncodeErr),
        abi ≠ [] →
        calls.mapM (encodeFunctionData abi) = .error e →
        handleFunctionCalls abi bytecode calls exec prev
          = { resultAfter := prev, consoleErrors := [], escaped := some e }) := by
  constructor
  · intro abi c h
    unfold encodeFunctionData
    rw [h]
  · intro abi bytecode calls exec prev e hne hmap
    cases abi with
    | nil => exact absurd rfl hne
    | cons a as =>
      unfold handleFunctionCalls
      rw [hmap]
      simp

/-- C7 witness: an unknown function name makes the whole handler fail with
no console output and the previous results intact. -/
theorem encoder_failure_escapes_unlogged_witness :
    encodeFunctionData abiSimpleStorage { name := "unknownFn", args := [] }
      = .error (.functionNotFound "unknownFn")
    ∧ handleFunctionCalls abiSimpleStorage "0x6001"
        [{ name := "unknownFn", args := [] }]
        (fun _ _ => .ok []) [mkDisplay "old"]
      = { resultAfter := [mkDisplay "old"], consoleErrors := []
          escaped := some (.functionNotFound "unknownFn") } := by
  constructor
  · exact encoder_failure_escapes_unlogged.1 abiSimpleStorage
      { name := "unknownFn", args := [] } (by decide)
  · exact encoder_failure_escapes_unlogged.2 abiSimpleStorage "0x6001"
      [{ name := "unknownFn", args := [] }] (fun _ _ => .ok []) [mkDisplay "old"]
      (.functionNotFound "unknownFn") (by decide) (by decide)

/-- C7 counterexample: the claim's "only logged" is false — the encoding
failure produces no console-error output at all; it escapes the handler
uncaught, while the result list stays unchanged. -/
theorem encoder_failure_not_logged_counterexample :
    handleFunctionCalls abiSimpleStorage "0x6001"
        [{ name := "unknownFn", args := [] }]
        (fun _ _ => .ok []) []
      = { resultAfter := [], consoleErrors := []
          escaped := some (.functionNotFound "unknownFn") } := by
  decide

/-- A `get()` response with empty return data: with a declared `uint256`
output this throws the zero-data decode error. -/
def respZeroData : ExecutionResponse :=
  { exitReason := "Success"
    reverted := false
    result := []
    gasUsed := "2246"
    logs := []
    traces := "" }

/-- C2 evaluated at the failing input: the first `get()` response decodes
fine on its own, yet a decode failure in the second response of the same
batch makes the whole loop throw — the batch result is the error, the catch
logs it, and the held result list is left as it was, so the sibling call's
result is lost instead of being produced independently. -/
theorem decode_failure_aborts_sibling_calls :
    decodeOne abiSimpleStorage "get" respSuccessSeven
      = .ok { call := "get", gasUsed := "2246", response := some "7", logs := [], traces := "" }
    ∧ decodeBatch abiSimpleStorage
        [{ name := "get", args := [] }, { name := "get", args := [] }]
        [respSuccessSeven, respZeroData]
      = .error .zeroData
    ∧ handleFunctionCalls abiSimpleStorage "0x6001"
        [{ name := "get", args := [] }, { name := "get", args := [] }]
        (fun _ _ => .ok [respSuccessSeven, respZeroData]) [mkDisplay "stale"]
      = { resultAfter := [mkDisplay "stale"], consoleErrors := ["Execution error:"]
          escaped := none } := by
  exact ⟨by decide, by decide, by decide⟩

/-- A raw log whose topic signature matches no event of the interface. -/
def rawLogUnknown : RawLog :=
  { address := "0xc0ffee", topics := [999], data := [] }

/-- A raw log carrying the `StoredDataUpdated(uint256)` topic signature and
the word 5 as data. -/
def rawLogStored : RawLog :=
  { address := "0xc0ffee"
    topics := [stringCode "StoredDataUpdated(uint256)"]
    data := [5] }

/-- A successful `set(1)` response whose only log has an unknown topic. -/
def respSetUnknownLog : ExecutionResponse :=
  { exitReason := "Success"
    reverted := false
    result := []
    gasUsed := "28000"
    logs := [rawLogUnknown]
    traces := "" }

/-- C3 evaluated at the failing input: a log matching a known event decodes
to the event name with positional args (the event's parameter is unnamed),
but a log whose topic matches no event descriptor makes `decodeEventLog`
throw, which aborts the whole batch instead of passing the raw
`{address, topics, data}` record through; the display layer's raw-log
branch renders only when a result has no decoded-logs field, which the
pipeline's success path always supplies. -/
theorem unmatched_log_aborts_instead_of_passthrough :
    decodeEventLog abiSimpleStorage rawLogStored
      = .ok { eventName := "StoredDataUpdated", args := .positional [5] }
    ∧ decodeEventLog abiSimpleStorage rawLogUnknown
      = .error (.eventSignatureNotFound 999)
    ∧ handleFunctionCalls abiSimpleStorage "0x6001"
        [{ name := "set", args := ["1"] }]
        (fun _ _ => .ok [respSetUnknownLog]) []
      = { resultAfter := [], consoleErrors := ["Execution error:"], escaped := none }
    ∧ renderLogSection none [rawLogUnknown] = .raw [rawLogUnknown] := by
  exact ⟨by decide, by decide, by decide, rfl⟩
